import Mathlib

/-!
A shallow embedding of the core of the `vulkan-tutorial` rendering engine:
device selection (`src/vulkan/base/device.rs`), swapchain negotiation and
invalidation handling (`src/swapchain.rs`), the frame scheduler
(`src/renderer.rs`), mapped-buffer overwrite
(`src/vulkan/base/buffers/mapped.rs`), and the teardown sequence
(`Renderer::drop` together with the component `destroy` functions), with
theorems about the embedded definitions.
-/

namespace Vkt

/-! ## Basic Vulkan value types -/

/-- `vk::Extent2D`: a width/height pair (`u32` fields). -/
structure Extent2D where
  width : Nat
  height : Nat
deriving DecidableEq, Repr

/-- `u32::MAX`, the sentinel value a surface reports in `current_extent`
when the client is expected to choose the extent itself. -/
def u32Max : Nat := 4294967295

/-- `vk::SurfaceCapabilitiesKHR`, restricted to the fields the engine reads. -/
structure SurfaceCapabilities where
  minImageCount : Nat
  maxImageCount : Nat
  currentExtent : Extent2D
  minImageExtent : Extent2D
  maxImageExtent : Extent2D
deriving DecidableEq, Repr

/-- Rust's `u32::clamp(self, min, max)`.  Rust panics when `min > max`;
the panic is modelled as `none`. -/
def rustClamp (x lo hi : Nat) : Option Nat :=
  if lo ≤ hi then some (max lo (min x hi)) else none

/-- `vk::Format`, restricted to the formats the engine names; every other
format is carried opaquely by its numeric code. -/
inductive VkFormat where
  | b8g8r8a8Srgb
  | r8g8b8a8Srgb
  | otherFormat (code : Nat)
deriving DecidableEq, Repr

/-- `vk::ColorSpaceKHR`, restricted likewise. -/
inductive VkColorSpace where
  | srgbNonlinear
  | otherColorSpace (code : Nat)
deriving DecidableEq, Repr

/-- `vk::SurfaceFormatKHR`: a format / color-space pair. -/
structure SurfaceFormatKHR where
  format : VkFormat
  colorSpace : VkColorSpace
deriving DecidableEq, Repr

/-- `vk::PresentModeKHR`, restricted likewise. -/
inductive PresentModeKHR where
  | fifo
  | immediate
  | mailbox
  | otherMode (code : Nat)
deriving DecidableEq, Repr

/-- `vk::Result` error codes as the swapchain wrapper distinguishes them:
`ERROR_OUT_OF_DATE_KHR` is handled specially, every other error code is
opaque. -/
inductive VkError where
  | outOfDateKhr
  | otherError (code : Int)
deriving DecidableEq, Repr

/-! ## Device selection (`src/vulkan/base/device.rs`) -/

/-- `vk::PhysicalDeviceType`; the selector only distinguishes discrete GPUs. -/
inductive PhysicalDeviceType where
  | discreteGpu
  | integratedGpu
  | virtualGpu
  | cpu
  | otherType
deriving DecidableEq, Repr

/-- One entry of `get_physical_device_queue_family_properties`, paired with
the surface-specific presentation query
`surface.supports_presentation(physical_device, queue_family_index)` for
that family. -/
structure QueueFamily where
  graphics : Bool
  presentSupport : Bool
deriving DecidableEq, Repr

/-- A physical device together with the query results `Device::new` reads
for it: properties, features, its extension list, and the surface queries
(`surface.formats`, `surface.present_modes`).  Query failures (which
`is_suitable` turns into "unsuitable" via `unwrap_or(false)`) are not
modelled: every query result is reified as data. -/
structure PhysicalDevice where
  deviceType : PhysicalDeviceType
  samplerAnisotropy : Nat
  extensions : List String
  formats : List SurfaceFormatKHR
  presentModes : List PresentModeKHR
  queueFamilies : List QueueFamily
deriving DecidableEq, Repr

/-- The device extensions `Device::new` requires: the swapchain extension,
plus the portability extension when `cfg!(target_os = "macos")`. -/
def requiredExtensions (macos : Bool) : List String :=
  if macos then ["VK_KHR_swapchain", "VK_KHR_portability_subset"]
  else ["VK_KHR_swapchain"]

/-- `Device::device_has_extensions`: every required extension appears among
the device's available extensions. -/
def deviceHasExtensions (required : List String) (d : PhysicalDevice) : Bool :=
  required.all fun req => d.extensions.any fun avail => avail = req

/-- A flattened (physical device, queue family index, queue family) tuple
as built by the `flat_map` in `Device::new`. -/
structure Candidate where
  device : PhysicalDevice
  queueFamilyIndex : Nat
  queueFamily : QueueFamily
deriving DecidableEq, Repr

/-- The flattened candidate list of `Device::new`: one tuple per queue
family of each enumerated physical device, in enumeration order. -/
def candidates (devices : List PhysicalDevice) : List Candidate :=
  devices.flatMap fun d => d.queueFamilies.enum.map fun p => ⟨d, p.1, p.2⟩

/-- `Device::is_suitable`, in the code's test order: required extensions,
anisotropic filtering (`sampler_anisotropy == 0` rejects), at least one
surface format and present mode, and a queue family with both graphics and
presentation support. -/
def isSuitable (required : List String) (c : Candidate) : Bool :=
  deviceHasExtensions required c.device &&
  !(c.device.samplerAnisotropy == 0) &&
  !(c.device.formats.isEmpty || c.device.presentModes.isEmpty) &&
  (c.queueFamily.graphics && c.queueFamily.presentSupport)

/-- `Device::score`: start from 0, add 1000 for a discrete GPU. -/
def score (c : Candidate) : Nat :=
  if c.device.deviceType = PhysicalDeviceType.discreteGpu then 1000 else 0

/-- Insertion into a list sorted by descending score, placing the new
element (which comes from earlier in the original list) before the first
element of equal-or-smaller score. -/
def insertByScore (x : Candidate) : List Candidate → List Candidate
  | [] => [x]
  | y :: ys => if score y ≤ score x then x :: y :: ys else y :: insertByScore x ys

/-- The unique stable descending-by-score sort, i.e. the behaviour of
Rust's stable `candidates.sort_by(|a, b| b.0.cmp(&a.0))` in `Device::new`
(the code sorts (score, candidate) tuples on the score component; here the
score is recomputed by `score`, which is the same function). -/
def sortByScoreDesc : List Candidate → List Candidate
  | [] => []
  | x :: xs => insertByScore x (sortByScoreDesc xs)

/-- The candidates surviving the `filter` stage of `Device::new`. -/
def passing (macos : Bool) (devices : List PhysicalDevice) : List Candidate :=
  (candidates devices).filter (isSuitable (requiredExtensions macos))

/-- `Device::new`, reduced to its selection logic: flatten, filter, sort
stably by descending score, take the first; error when no candidate
survives.  The subsequent logical-device, queue and command-pool creation
consumes the winning tuple but makes no further choice. -/
def Device.new (macos : Bool) (devices : List PhysicalDevice) : Except String Candidate :=
  match (sortByScoreDesc (passing macos devices)).head? with
  | some c => .ok c
  | none => .error "No suitable physical device found!"

/-! ## Swapchain negotiation (`src/swapchain.rs`) -/

/-- The ordered format preference list in `Swapchain::make`. -/
def preferredFormats : List SurfaceFormatKHR :=
  [⟨.b8g8r8a8Srgb, .srgbNonlinear⟩, ⟨.r8g8b8a8Srgb, .srgbNonlinear⟩]

/-- The format-selection stage of `Swapchain::make`: the first preferred
format the surface advertises; the no-suitable-format error otherwise. -/
def chooseFormat (availableFormats : List SurfaceFormatKHR) : Except String SurfaceFormatKHR :=
  match preferredFormats.find? (fun x => availableFormats.contains x) with
  | some f => .ok f
  | none => .error "No suitable swapchain format found."

/-- `Swapchain::compute_extent`: when the surface reports the
`u32::MAX`/`u32::MAX` sentinel in `current_extent`, clamp the window size
componentwise into `[min_image_extent, max_image_extent]`; otherwise return
`current_extent` verbatim.  `none` models the `u32::clamp` panic when a
minimum bound exceeds the corresponding maximum. -/
def computeExtent (size : Extent2D) (caps : SurfaceCapabilities) : Option Extent2D :=
  if caps.currentExtent.width = u32Max ∧ caps.currentExtent.height = u32Max then
    match rustClamp size.width caps.minImageExtent.width caps.maxImageExtent.width,
          rustClamp size.height caps.minImageExtent.height caps.maxImageExtent.height with
    | some w, some h => some ⟨w, h⟩
    | _, _ => none
  else
    some caps.currentExtent

/-- The containment property the specification asserts of a computed
extent. -/
def extentWithin (caps : SurfaceCapabilities) (e : Extent2D) : Prop :=
  caps.minImageExtent.width ≤ e.width ∧ e.width ≤ caps.maxImageExtent.width ∧
  caps.minImageExtent.height ≤ e.height ∧ e.height ≤ caps.maxImageExtent.height

/-- The "client decides" sentinel test of `Swapchain::compute_extent`. -/
def isSentinel (caps : SurfaceCapabilities) : Prop :=
  caps.currentExtent.width = u32Max ∧ caps.currentExtent.height = u32Max

/-- `Swapchain::acquire`: a successful acquisition with the suboptimal flag
set, or an `ERROR_OUT_OF_DATE_KHR`, both become `ok none` (recreate
required); a clean success yields the image index; any other error
propagates. -/
def Swapchain.acquire (driver : Except VkError (Nat × Bool)) : Except VkError (Option Nat) :=
  match driver with
  | .ok (index, suboptimal) =>
    match suboptimal with
    | true => .ok none
    | false => .ok (some index)
  | .error .outOfDateKhr => .ok none
  | .error e => .error e

/-- `Swapchain::present`: the driver's suboptimal flag is returned as the
needs-recreate boolean, `ERROR_OUT_OF_DATE_KHR` becomes `ok true`, any
other error propagates. -/
def Swapchain.present (driver : Except VkError Bool) : Except VkError Bool :=
  match driver with
  | .ok suboptimal => .ok suboptimal
  | .error .outOfDateKhr => .ok true
  | .error e => .error e

/-! ## Frame scheduler (`src/renderer.rs`) -/

/-- The `FRAMES_IN_FLIGHT` constant. -/
def FRAMES_IN_FLIGHT : Nat := 2

/-- `Renderer::frames_in_flight`: when `max_image_count` is 0 (unbounded),
`max(FRAMES_IN_FLIGHT, min_image_count)`; otherwise
`FRAMES_IN_FLIGHT.clamp(min_image_count, max_image_count)` (whose Rust
panic on an inverted range is modelled by `rustClamp`'s `none`). -/
def framesInFlight (caps : SurfaceCapabilities) : Option Nat :=
  match caps.maxImageCount with
  | 0 => some (max FRAMES_IN_FLIGHT caps.minImageCount)
  | _ => rustClamp FRAMES_IN_FLIGHT caps.minImageCount caps.maxImageCount

/-- The CPU-visible lifecycle of a frame-done fence: `signaled`,
`unsignaled` (reset, no work submitted against it), or `pending`
(work submitted, the GPU will signal it). -/
inductive FenceState where
  | signaled
  | unsignaled
  | pending
deriving DecidableEq, Repr

/-- `PerFrameData`, reduced to its CPU-visible state.  The command buffer
and the two semaphores are GPU-side objects with no state this model can
observe. -/
structure FrameSlot where
  fence : FenceState
deriving DecidableEq, Repr

/-- `PerFrameData::new`: the frame-done fence is created with
`vk::FenceCreateFlags::SIGNALED`. -/
def FrameSlot.new : FrameSlot := ⟨FenceState.signaled⟩

/-- The renderer state the verified claims depend on: the computed
frames-in-flight count, the image count passed to
`SwapchainCreateInfoKHR::min_image_count`, a generation counter for the
swapchain (bumped by every recreation), the per-frame slots, and the
per-frame index. -/
structure Renderer where
  framesInFlight : Nat
  swapchainImageCount : Nat
  swapchainGen : Nat
  perFrameData : List FrameSlot
  perFrameIndex : Nat
deriving DecidableEq, Repr

/-- `Renderer::new`, reduced to the construction data the claims depend
on: compute `frames_in_flight` from the surface capabilities, pass it to
`Swapchain::new` as the requested image count, and build one
`PerFrameData` per frame in flight; the per-frame index starts at 0.
Failures of the surrounding Vulkan calls are not modelled. -/
def Renderer.new (caps : SurfaceCapabilities) : Option Renderer :=
  match Vkt.framesInFlight caps with
  | none => none
  | some n => some
    { framesInFlight := n
      swapchainImageCount := n
      swapchainGen := 1
      perFrameData := List.replicate n FrameSlot.new
      perFrameIndex := 0 }

/-- `Renderer::recreate_swapchain`: waits for the device to go idle,
destroys the framebuffers and the swapchain, and rebuilds both with the
unchanged `frames_in_flight`; no per-frame state is touched. -/
def Renderer.recreateSwapchain (r : Renderer) : Renderer :=
  { r with swapchainGen := r.swapchainGen + 1 }

/-- `Renderer::resize` forwards to `recreate_swapchain(Some(size))`. -/
def Renderer.resize (r : Renderer) : Renderer :=
  r.recreateSwapchain

/-- Overwrite the fence state of slot `i`. -/
def Renderer.setFence (r : Renderer) (i : Nat) (s : FenceState) : Renderer :=
  { r with perFrameData := r.perFrameData.set i ⟨s⟩ }

/-- The driver responses one `Renderer::draw` call consumes: one response
per iteration of the acquire loop, and one for the present call. -/
structure DrawOracle where
  acquires : List (Except VkError (Nat × Bool))
  presentResult : Except VkError Bool

/-- The observable outcome of one `Renderer::draw` call: a panic, an
acquire loop that is still spinning when the oracle runs out, an early
return through `?` with a fatal error, or a completed frame (carrying
whether the initial fence wait found the fence unsignaled). -/
inductive DrawOutcome where
  | panicked
  | incomplete (r : Renderer)
  | failed (r : Renderer)
  | ok (r : Renderer) (waitBlocked : Bool)

/-- The index-advance epilogue of `Renderer::draw`:
`self.per_frame_index = (self.per_frame_index + 1) % self.frames_in_flight`
(a Rust `%` by zero panics), then the call returns successfully. -/
def Renderer.advanceFrame (r : Renderer) (waitBlocked : Bool) : DrawOutcome :=
  if r.framesInFlight = 0 then DrawOutcome.panicked
  else DrawOutcome.ok
    { r with perFrameIndex := (r.perFrameIndex + 1) % r.framesInFlight } waitBlocked

/-- The acquire loop in `Renderer::draw`: each recreate-required signal
recreates the swapchain and retries; a fatal error stops the loop; a
successful acquisition yields the image index. -/
def acquireLoop (r : Renderer) : List (Except VkError (Nat × Bool)) →
    Renderer × Option (Except VkError Nat)
  | [] => (r, none)
  | d :: rest =>
    match Swapchain.acquire d with
    | .ok (some i) => (r, some (.ok i))
    | .ok none => acquireLoop r.recreateSwapchain rest
    | .error e => (r, some (.error e))

/-- `Renderer::draw`: look up the current frame slot (out-of-bounds
indexing panics), wait on its frame-done fence, reset the fence, run the
acquire loop, record and submit the command buffer (the submission's fence
will be signaled by the GPU, modelled as `pending`), present (recreating
once more on a recreate-required result), and finally advance the
per-frame index modulo `frames_in_flight` (a Rust `%` by zero panics). -/
def Renderer.draw (r : Renderer) (o : DrawOracle) : DrawOutcome :=
  match r.perFrameData[r.perFrameIndex]? with
  | none => DrawOutcome.panicked
  | some slot =>
    let waitBlocked : Bool := !(decide (slot.fence = FenceState.signaled))
    let r1 := r.setFence r.perFrameIndex FenceState.unsignaled
    match acquireLoop r1 o.acquires with
    | (r2, none) => DrawOutcome.incomplete r2
    | (r2, some (.error _)) => DrawOutcome.failed r2
    | (r2, some (.ok _)) =>
      let r3 := r2.setFence r.perFrameIndex FenceState.pending
      match Swapchain.present o.presentResult with
      | .error _ => DrawOutcome.failed r3
      | .ok needsRecreate =>
        Renderer.advanceFrame (if needsRecreate then r3.recreateSwapchain else r3)
          waitBlocked

/-- Iterate `draw` calls, requiring each to complete. -/
def drawRun (r : Renderer) : List DrawOracle → Option Renderer
  | [] => some r
  | o :: os =>
    match r.draw o with
    | .ok r1 _ => drawRun r1 os
    | _ => none

/-- One external call on the renderer. -/
inductive RendererCall where
  | drawCall (o : DrawOracle)
  | resizeCall

/-- Execute one external call; `none` models a panic.  A draw that returns
early with an error leaves the state it had reached (the frame loop is
expected to stop, but the state stays well-formed). -/
def stepCall (r : Renderer) : RendererCall → Option Renderer
  | .drawCall o =>
    match r.draw o with
    | .panicked => none
    | .incomplete r1 => some r1
    | .failed r1 => some r1
    | .ok r1 _ => some r1
  | .resizeCall => some r.resize

/-- Execute a sequence of external calls. -/
def runCalls (r : Renderer) : List RendererCall → Option Renderer
  | [] => some r
  | c :: cs =>
    match stepCall r c with
    | none => none
    | some r1 => runCalls r1 cs

/-! ## Mapped buffers (`src/vulkan/base/buffers/mapped.rs`) -/

/-- The device-level operations a `MappedBuffer` method can perform, for
stating what `overwrite` does not do. -/
inductive DevOp where
  | mapMemory
  | unmapMemory
  | waitForFences
  | copyToMapped
deriving DecidableEq, Repr

/-- `MappedBuffer<T>`: `size` is the byte length fixed at construction
(`size_of_val(data)`), `contents` the elements currently in the mapped
region.  The element byte size `size_of::<T>()` is passed explicitly as
`sizeOfT` to the operations. -/
structure MappedBuffer (α : Type) where
  size : Nat
  contents : List α
deriving DecidableEq, Repr

/-- `MappedBuffer::new`: allocate and map host-visible coherent memory
once, then write the initial contents through `overwrite` (which succeeds,
the sizes being equal by construction). -/
def MappedBuffer.new (sizeOfT : Nat) (data : List α) : MappedBuffer α × List DevOp :=
  ({ size := sizeOfT * data.length, contents := data },
   [DevOp.mapMemory, DevOp.copyToMapped])

/-- `MappedBuffer::overwrite`: error out (before any write) when the
payload byte length `size_of_val(data)` differs from the byte length fixed
at construction; otherwise perform the aligned copy into the
already-mapped region.  Returns the buffer state after the call, the error
if any, and the device operations performed. -/
def MappedBuffer.overwrite (sizeOfT : Nat) (buf : MappedBuffer α) (data : List α) :
    MappedBuffer α × Option String × List DevOp :=
  if sizeOfT * data.length ≠ buf.size then
    (buf, some "Size must match when overwriting buffer.", [])
  else
    ({ buf with contents := data }, none, [DevOp.copyToMapped])

/-! ## Teardown sequencing (`Renderer::drop` and the `destroy` functions) -/

/-- The destruction-relevant events of the teardown sequence. -/
inductive TeardownEvent where
  | deviceWaitIdle
  | destroyFence
  | destroySemaphore
  | destroyBuffer
  | freeMemory
  | destroyPipeline
  | destroyPipelineLayout
  | destroyFramebuffer
  | destroyRenderPass
  | destroyImageView
  | destroySwapchain
  | destroyCommandPool
  | destroyDevice
  | destroySurface
  | destroyDebugMessenger
  | destroyInstance
deriving DecidableEq, Repr

/-- `PerFrameData::destroy`: the fence, then the two semaphores. -/
def perFrameDestroy : List TeardownEvent :=
  [.destroyFence, .destroySemaphore, .destroySemaphore]

/-- `Buffer::destroy`: the buffer, then its memory. -/
def bufferDestroy : List TeardownEvent :=
  [.destroyBuffer, .freeMemory]

/-- `Pipeline::destroy`: the pipeline, then the pipeline layout. -/
def pipelineDestroy : List TeardownEvent :=
  [.destroyPipeline, .destroyPipelineLayout]

/-- `TriangleRenderer::destroy`: the index buffer, the vertex buffer, then
the pipeline. -/
def triangleRendererDestroy : List TeardownEvent :=
  bufferDestroy ++ bufferDestroy ++ pipelineDestroy

/-- `Swapchain::destroy`: every image view, then the swapchain handle. -/
def swapchainDestroy (views : Nat) : List TeardownEvent :=
  List.replicate views .destroyImageView ++ [.destroySwapchain]

/-- `Device::destroy`: the transient command pool, the regular command
pool, then the logical device. -/
def deviceDestroy : List TeardownEvent :=
  [.destroyCommandPool, .destroyCommandPool, .destroyDevice]

/-- The event sequence of `Renderer::drop`, parametrised by the number of
frame slots, framebuffers and swapchain image views, and by whether the
debug messenger was created: wait for the device to go idle, then destroy
the per-frame data, the triangle renderer, the framebuffers, the render
pass, the swapchain, the device, the surface, the debug messenger (when
present), and the instance. -/
def rendererDrop (slots fbs views : Nat) (debugging : Bool) : List TeardownEvent :=
  [.deviceWaitIdle]
    ++ (List.replicate slots perFrameDestroy).flatten
    ++ triangleRendererDestroy
    ++ List.replicate fbs .destroyFramebuffer
    ++ [.destroyRenderPass]
    ++ swapchainDestroy views
    ++ deviceDestroy
    ++ [.destroySurface]
    ++ (if debugging then [.destroyDebugMessenger] else [])
    ++ [.destroyInstance]

/-- Every `p`-event occurs at a strictly earlier position than every
`q`-event. -/
def precedes (es : List TeardownEvent) (p q : TeardownEvent → Bool) : Prop :=
  ∀ i j, (hi : i < es.length) → (hj : j < es.length) →
    p es[i] = true → q es[j] = true → i < j

/-- No event of the list satisfies `p`. -/
@[reducible] def noEvent (p : TeardownEvent → Bool) (es : List TeardownEvent) : Prop :=
  ∀ e ∈ es, p e = false

/-- Every frame slot at index `k` or later still has a signaled frame-done
fence (used to show that a slot's first fence wait finds its fence in the
created, signaled state). -/
def slotsSignaledFrom (r : Renderer) (k : Nat) : Prop :=
  ∀ j, k ≤ j → ∀ s, r.perFrameData[j]? = some s → s.fence = FenceState.signaled

/-! ## Theorems -/

/-- `insertByScore` never produces the empty list. -/
theorem insertByScore_ne_nil (x : Candidate) (l : List Candidate) :
    insertByScore x l ≠ [] := by
  cases l with
  | nil => simp [insertByScore]
  | cons y ys =>
    unfold insertByScore
    split <;> simp

/-- The stable sort is empty exactly on the empty list. -/
theorem sortByScoreDesc_eq_nil (l : List Candidate) :
    sortByScoreDesc l = [] ↔ l = [] := by
  cases l with
  | nil => simp [sortByScoreDesc]
  | cons x xs =>
    simp only [sortByScoreDesc]
    constructor
    · intro h
      exact absurd h (insertByScore_ne_nil x (sortByScoreDesc xs))
    · intro h
      cases h

/-- The head of the stable descending sort is the first element of the
original list attaining the maximal score. -/
theorem sortByScoreDesc_head_spec (l : List Candidate) (c : Candidate)
    (h : (sortByScoreDesc l).head? = some c) :
    c ∈ l ∧ (∀ c2 ∈ l, score c2 ≤ score c) ∧
    ∃ l1 l2, l = l1 ++ c :: l2 ∧ ∀ c2 ∈ l1, score c2 < score c := by
  induction l generalizing c with
  | nil => simp [sortByScoreDesc] at h
  | cons x xs ih =>
    rw [sortByScoreDesc] at h
    cases hsx : sortByScoreDesc xs with
    | nil =>
      have hxs : xs = [] := (sortByScoreDesc_eq_nil xs).mp hsx
      rw [hsx] at h
      simp only [insertByScore, List.head?] at h
      injection h with h
      subst h
      subst hxs
      exact ⟨List.mem_cons_self _ _, by simp, [], [], rfl, by simp⟩
    | cons m rest =>
      obtain ⟨hmem, hmax, l1, l2, hsplit, hstrict⟩ :=
        ih m (by rw [hsx]; rfl)
      rw [hsx] at h
      unfold insertByScore at h
      by_cases hc : score m ≤ score x
      · rw [if_pos hc] at h
        simp only [List.head?] at h
        injection h with h
        subst h
        refine ⟨List.mem_cons_self _ _, ?_, [], xs, rfl, by simp⟩
        intro c2 hc2
        rcases List.mem_cons.mp hc2 with h2 | h2
        · subst h2; exact Nat.le_refl _
        · exact Nat.le_trans (hmax c2 h2) hc
      · rw [if_neg hc] at h
        simp only [List.head?] at h
        injection h with h
        subst h
        have hxlt : score x < score m := by omega
        refine ⟨List.mem_cons_of_mem _ hmem, ?_, x :: l1, l2,
          by rw [hsplit, List.cons_append], ?_⟩
        · intro c2 hc2
          rcases List.mem_cons.mp hc2 with h2 | h2
          · subst h2; exact Nat.le_of_lt hxlt
          · exact hmax c2 h2
        · intro c2 hc2
          rcases List.mem_cons.mp hc2 with h2 | h2
          · subst h2; exact hxlt
          · exact hstrict c2 h2

/-- C1: `Device::new` errors exactly when no flattened (device, queue
family) candidate passes `is_suitable`; a selected candidate passes every
filter, attains the maximal score among passing candidates, and is the
earliest passing candidate with that score (Rust's `sort_by` is stable, so
ties resolve to enumeration order). -/
theorem device_selection_policy (macos : Bool) (devices : List PhysicalDevice) :
    (Device.new macos devices = .error "No suitable physical device found!" ↔
      passing macos devices = []) ∧
    (∀ c, Device.new macos devices = .ok c →
      c ∈ passing macos devices ∧
      isSuitable (requiredExtensions macos) c = true ∧
      (∀ c2 ∈ passing macos devices, score c2 ≤ score c) ∧
      ∃ l1 l2, passing macos devices = l1 ++ c :: l2 ∧
        ∀ c2 ∈ l1, score c2 < score c) := by
  constructor
  · unfold Device.new
    cases hh : (sortByScoreDesc (passing macos devices)).head? with
    | none =>
      exact ⟨fun _ => (sortByScoreDesc_eq_nil _).mp (List.head?_eq_none_iff.mp hh),
        fun _ => rfl⟩
    | some c =>
      constructor
      · intro hfalse
        simp at hfalse
      · intro hnil
        rw [(sortByScoreDesc_eq_nil _).mpr hnil] at hh
        cases hh
  · intro c hc
    unfold Device.new at hc
    cases hh : (sortByScoreDesc (passing macos devices)).head? with
    | none =>
      rw [hh] at hc
      cases hc
    | some c2 =>
      rw [hh] at hc
      injection hc with hc
      subst hc
      obtain ⟨hmem, hmax, l1, l2, hsplit, hstrict⟩ :=
        sortByScoreDesc_head_spec (passing macos devices) c2 hh
      have hsuit : isSuitable (requiredExtensions macos) c2 = true :=
        (List.mem_filter.mp hmem).2
      exact ⟨hmem, hsuit, hmax, l1, l2, hsplit, hstrict⟩

/-- Witness for C1: with an integrated GPU enumerated before a discrete
GPU (both suitable), the discrete one is selected and passes the filter. -/
theorem device_selection_policy_witness :
    (⟨⟨.discreteGpu, 1, ["VK_KHR_swapchain"], [⟨.b8g8r8a8Srgb, .srgbNonlinear⟩],
        [.fifo], [⟨true, true⟩]⟩, 0, ⟨true, true⟩⟩ : Candidate) ∈
      passing false
        [⟨.integratedGpu, 1, ["VK_KHR_swapchain"], [⟨.b8g8r8a8Srgb, .srgbNonlinear⟩],
          [.fifo], [⟨true, true⟩]⟩,
         ⟨.discreteGpu, 1, ["VK_KHR_swapchain"], [⟨.b8g8r8a8Srgb, .srgbNonlinear⟩],
          [.fifo], [⟨true, true⟩]⟩] ∧
    isSuitable (requiredExtensions false)
      (⟨⟨.discreteGpu, 1, ["VK_KHR_swapchain"], [⟨.b8g8r8a8Srgb, .srgbNonlinear⟩],
        [.fifo], [⟨true, true⟩]⟩, 0, ⟨true, true⟩⟩ : Candidate) = true :=
  let res := (device_selection_policy false
    [⟨.integratedGpu, 1, ["VK_KHR_swapchain"], [⟨.b8g8r8a8Srgb, .srgbNonlinear⟩],
      [.fifo], [⟨true, true⟩]⟩,
     ⟨.discreteGpu, 1, ["VK_KHR_swapchain"], [⟨.b8g8r8a8Srgb, .srgbNonlinear⟩],
      [.fifo], [⟨true, true⟩]⟩]).2
    ⟨⟨.discreteGpu, 1, ["VK_KHR_swapchain"], [⟨.b8g8r8a8Srgb, .srgbNonlinear⟩],
      [.fifo], [⟨true, true⟩]⟩, 0, ⟨true, true⟩⟩ rfl
  ⟨res.1, res.2.1⟩

/-- C3: assuming a well-formed capability report (a nonzero minimum image
count and, when bounded, `min_image_count ≤ max_image_count`), the
computed frames-in-flight value — which `Renderer::new` passes to
`SwapchainCreateInfoKHR::min_image_count` and uses as the number of
per-frame slots — equals `min_image_count` or `min_image_count + 1`, and
never exceeds `max_image_count` when that bound is nonzero. -/
theorem frames_in_flight_image_count (caps : SurfaceCapabilities) (n : Nat)
    (hmin : 1 ≤ caps.minImageCount)
    (hmax : caps.maxImageCount = 0 ∨ caps.minImageCount ≤ caps.maxImageCount)
    (hn : framesInFlight caps = some n) :
    (n = caps.minImageCount ∨ n = caps.minImageCount + 1) ∧
    (caps.maxImageCount ≠ 0 → n ≤ caps.maxImageCount) ∧
    ∀ r, Renderer.new caps = some r →
      r.swapchainImageCount = n ∧ r.perFrameData.length = n := by
  have hfields : ∀ r, Renderer.new caps = some r →
      r.swapchainImageCount = n ∧ r.perFrameData.length = n := by
    intro r hr
    unfold Renderer.new at hr
    rw [hn] at hr
    injection hr with hr
    subst hr
    exact ⟨rfl, by simp⟩
  cases hcap : caps.maxImageCount with
  | zero =>
    simp only [framesInFlight, hcap] at hn
    injection hn with hn
    unfold FRAMES_IN_FLIGHT at hn
    refine ⟨?_, fun h => absurd rfl h, hfields⟩
    omega
  | succ m =>
    simp only [framesInFlight, hcap] at hn
    unfold rustClamp at hn
    have hle : caps.minImageCount ≤ m + 1 := by
      rcases hmax with h | h
      · rw [h] at hcap; cases hcap
      · omega
    rw [if_pos hle] at hn
    injection hn with hn
    unfold FRAMES_IN_FLIGHT at hn
    refine ⟨by omega, fun _ => by omega, hfields⟩

/-- Witness for C3: an unbounded report with a minimum image count of 1
yields two frames in flight, i.e. the minimum plus one. -/
theorem frames_in_flight_image_count_witness :
    ((2 : Nat) = 1 ∨ (2 : Nat) = 1 + 1) ∧
    ((0 : Nat) ≠ 0 → (2 : Nat) ≤ 0) ∧
    ∀ r, Renderer.new ⟨1, 0, ⟨0, 0⟩, ⟨0, 0⟩, ⟨0, 0⟩⟩ = some r →
      r.swapchainImageCount = 2 ∧ r.perFrameData.length = 2 :=
  frames_in_flight_image_count ⟨1, 0, ⟨0, 0⟩, ⟨0, 0⟩, ⟨0, 0⟩⟩ 2
    (by decide) (Or.inl rfl) rfl

/-- C2: `Swapchain::acquire` returns no image index exactly when the
driver reports the chain out-of-date or the acquired image suboptimal;
`Swapchain::present` returns needs-recreate under the same two conditions;
every other non-success driver status propagates as an error from either
call. -/
theorem acquire_present_recreate_policy :
    (∀ d : Except VkError (Nat × Bool),
      (Swapchain.acquire d = .ok none ↔
        d = .error .outOfDateKhr ∨ ∃ i, d = .ok (i, true)) ∧
      (∀ i, Swapchain.acquire d = .ok (some i) ↔ d = .ok (i, false)) ∧
      (∀ e, Swapchain.acquire d = .error e ↔ d = .error e ∧ e ≠ .outOfDateKhr))
    ∧ (∀ d : Except VkError Bool,
      (Swapchain.present d = .ok true ↔ d = .error .outOfDateKhr ∨ d = .ok true) ∧
      (∀ e, Swapchain.present d = .error e ↔ d = .error e ∧ e ≠ .outOfDateKhr)) := by
  constructor
  · intro d
    rcases d with e | ⟨i, b⟩
    · cases e <;>
        refine ⟨by simp [Swapchain.acquire], fun i2 => by simp [Swapchain.acquire], fun e2 => ?_⟩ <;>
        cases e2 <;> simp [Swapchain.acquire]
    · cases b <;>
        refine ⟨by simp [Swapchain.acquire], fun i2 => by simp [Swapchain.acquire], fun e2 => ?_⟩ <;>
        cases e2 <;> simp [Swapchain.acquire]
  · intro d
    rcases d with e | b
    · cases e <;>
        refine ⟨by simp [Swapchain.present], fun e2 => ?_⟩ <;>
        cases e2 <;> simp [Swapchain.present]
    · cases b <;>
        refine ⟨by simp [Swapchain.present], fun e2 => ?_⟩ <;>
        cases e2 <;> simp [Swapchain.present]

/-- Witness for C2: an out-of-date error on acquire yields `ok none`. -/
theorem acquire_present_recreate_policy_witness :
    Swapchain.acquire (.error .outOfDateKhr) = .ok none :=
  ((acquire_present_recreate_policy.1 (.error .outOfDateKhr)).1).mpr (Or.inl rfl)

/-- C4 counterexample: with a capability report whose non-sentinel
`current_extent` lies outside `[min_image_extent, max_image_extent]`, the
computed extent is returned verbatim and does not lie within the bounds,
contradicting the claim's "always lies within" clause. -/
theorem compute_extent_out_of_bounds :
    computeExtent ⟨800, 600⟩ ⟨2, 3, ⟨0, 0⟩, ⟨1, 1⟩, ⟨2, 2⟩⟩ = some ⟨0, 0⟩ ∧
    ¬ extentWithin ⟨2, 3, ⟨0, 0⟩, ⟨1, 1⟩, ⟨2, 2⟩⟩ ⟨0, 0⟩ := by
  constructor
  · decide
  · intro h
    exact absurd h.1 (by decide)

/-- C4 (amended): when the surface reports the `u32::MAX` sentinel (and
its extent bounds are not inverted), the computed extent is the window
size clamped componentwise into `[min_image_extent, max_image_extent]` and
lies within those bounds; otherwise the surface's `current_extent` is
returned verbatim. -/
theorem compute_extent_cases (size : Extent2D) (caps : SurfaceCapabilities) :
    (isSentinel caps →
      caps.minImageExtent.width ≤ caps.maxImageExtent.width →
      caps.minImageExtent.height ≤ caps.maxImageExtent.height →
      computeExtent size caps =
        some ⟨max caps.minImageExtent.width (min size.width caps.maxImageExtent.width),
              max caps.minImageExtent.height (min size.height caps.maxImageExtent.height)⟩ ∧
      (∀ e, computeExtent size caps = some e → extentWithin caps e))
    ∧ (¬ isSentinel caps → computeExtent size caps = some caps.currentExtent) := by
  constructor
  · intro hs hw hh
    unfold isSentinel at hs
    have heq : computeExtent size caps =
        some ⟨max caps.minImageExtent.width (min size.width caps.maxImageExtent.width),
              max caps.minImageExtent.height (min size.height caps.maxImageExtent.height)⟩ := by
      unfold computeExtent rustClamp
      rw [if_pos hs, if_pos hw, if_pos hh]
    refine ⟨heq, fun e he => ?_⟩
    rw [heq] at he
    injection he with he
    subst he
    exact ⟨Nat.le_max_left _ _, Nat.max_le.mpr ⟨hw, Nat.min_le_right _ _⟩,
      Nat.le_max_left _ _, Nat.max_le.mpr ⟨hh, Nat.min_le_right _ _⟩⟩
  · intro hs
    unfold isSentinel at hs
    unfold computeExtent
    rw [if_neg hs]

/-- Witness for C4: a sentinel report clamps an 800×600 window into
`[100, 1000]²`. -/
theorem compute_extent_cases_witness :
    computeExtent ⟨800, 600⟩ ⟨1, 0, ⟨u32Max, u32Max⟩, ⟨100, 100⟩, ⟨1000, 1000⟩⟩ =
      some ⟨max 100 (min 800 1000), max 100 (min 600 1000)⟩ ∧
    (∀ e, computeExtent ⟨800, 600⟩ ⟨1, 0, ⟨u32Max, u32Max⟩, ⟨100, 100⟩, ⟨1000, 1000⟩⟩ = some e →
      extentWithin ⟨1, 0, ⟨u32Max, u32Max⟩, ⟨100, 100⟩, ⟨1000, 1000⟩⟩ e) :=
  (compute_extent_cases ⟨800, 600⟩ ⟨1, 0, ⟨u32Max, u32Max⟩, ⟨100, 100⟩, ⟨1000, 1000⟩⟩).1
    (by exact ⟨rfl, rfl⟩) (by decide) (by decide)

/-- C6: `MappedBuffer::overwrite` fails exactly when the payload byte
length differs from the byte length fixed at construction; on failure the
buffer is unchanged and nothing is written; on success the payload is
copied into the already-mapped region, with no remapping and no fence
wait in either case. -/
theorem mapped_overwrite_spec {α : Type} (sizeOfT : Nat) (buf : MappedBuffer α)
    (data : List α) (buf1 : MappedBuffer α) (err : Option String) (ops : List DevOp)
    (h : MappedBuffer.overwrite sizeOfT buf data = (buf1, err, ops)) :
    (err ≠ none ↔ sizeOfT * data.length ≠ buf.size) ∧
    (err ≠ none → buf1 = buf ∧ ops = []) ∧
    (err = none → buf1.contents = data ∧ buf1.size = buf.size ∧ ops = [DevOp.copyToMapped]) ∧
    DevOp.mapMemory ∉ ops ∧ DevOp.waitForFences ∉ ops := by
  unfold MappedBuffer.overwrite at h
  split at h
  · rename_i hc
    simp only [Prod.mk.injEq] at h
    obtain ⟨rfl, rfl, rfl⟩ := h
    refine ⟨by simp [hc], fun _ => ⟨rfl, rfl⟩, by simp, by simp, by simp⟩
  · rename_i hc
    simp only [Prod.mk.injEq] at h
    obtain ⟨rfl, rfl, rfl⟩ := h
    refine ⟨by simp [hc], by simp, fun _ => ⟨rfl, rfl, rfl⟩, by simp, by simp⟩

/-- Witness for C6: overwriting a 2-element buffer (element size 4) with a
3-element payload fails and leaves the buffer unchanged. -/
theorem mapped_overwrite_spec_witness :
    ((some "Size must match when overwriting buffer." ≠ (none : Option String)) ↔
      4 * [3, 4, 5].length ≠ (MappedBuffer.mk (4 * 2) [1, 2] : MappedBuffer Nat).size) ∧
    (some "Size must match when overwriting buffer." ≠ (none : Option String) →
      (MappedBuffer.mk (4 * 2) [1, 2] : MappedBuffer Nat) = ⟨4 * 2, [1, 2]⟩ ∧
      ([] : List DevOp) = []) ∧
    ((some "Size must match when overwriting buffer." : Option String) = none →
      ([1, 2] : List Nat) = [3, 4, 5] ∧ (4 * 2 : Nat) = 4 * 2 ∧
      ([] : List DevOp) = [DevOp.copyToMapped]) ∧
    DevOp.mapMemory ∉ ([] : List DevOp) ∧ DevOp.waitForFences ∉ ([] : List DevOp) :=
  mapped_overwrite_spec 4 ⟨4 * 2, [1, 2]⟩ [3, 4, 5] ⟨4 * 2, [1, 2]⟩
    (some "Size must match when overwriting buffer.") [] rfl

/-- C7: format selection takes the first entry of the preference list
(8-bit BGRA sRGB, then 8-bit RGBA sRGB) advertised by the surface, and
errors out when neither is advertised — it never falls back to the first
available format (every selected format is from the preference list). -/
theorem format_selection_policy (avail : List SurfaceFormatKHR) :
    (∀ f, chooseFormat avail = .ok f →
      f ∈ preferredFormats ∧ f ∈ avail ∧
      (f = ⟨.b8g8r8a8Srgb, .srgbNonlinear⟩ ∨
        (f = ⟨.r8g8b8a8Srgb, .srgbNonlinear⟩ ∧
          (⟨.b8g8r8a8Srgb, .srgbNonlinear⟩ : SurfaceFormatKHR) ∉ avail)))
    ∧ (chooseFormat avail = .error "No suitable swapchain format found." ↔
        (⟨.b8g8r8a8Srgb, .srgbNonlinear⟩ : SurfaceFormatKHR) ∉ avail ∧
        (⟨.r8g8b8a8Srgb, .srgbNonlinear⟩ : SurfaceFormatKHR) ∉ avail) := by
  by_cases h1 : (⟨.b8g8r8a8Srgb, .srgbNonlinear⟩ : SurfaceFormatKHR) ∈ avail <;>
    by_cases h2 : (⟨.r8g8b8a8Srgb, .srgbNonlinear⟩ : SurfaceFormatKHR) ∈ avail <;>
    constructor <;>
    simp_all [chooseFormat, preferredFormats, List.find?]

/-- Witness for C7: when only 8-bit RGBA sRGB is advertised, it is the
selected format. -/
theorem format_selection_policy_witness :
    (⟨.r8g8b8a8Srgb, .srgbNonlinear⟩ : SurfaceFormatKHR) ∈
        [(⟨.r8g8b8a8Srgb, .srgbNonlinear⟩ : SurfaceFormatKHR)] ∧
      (⟨.r8g8b8a8Srgb, .srgbNonlinear⟩ : SurfaceFormatKHR) ∈ preferredFormats ∧
      True :=
  let res := (format_selection_policy [⟨.r8g8b8a8Srgb, .srgbNonlinear⟩]).1
    ⟨.r8g8b8a8Srgb, .srgbNonlinear⟩ rfl
  ⟨res.2.1, res.1, trivial⟩

/-- The acquire loop only recreates the swapchain: the frames-in-flight
count, the per-frame slots and the per-frame index are untouched. -/
theorem acquireLoop_state (ds : List (Except VkError (Nat × Bool))) :
    ∀ (r r2 : Renderer) (res : Option (Except VkError Nat)),
    acquireLoop r ds = (r2, res) →
    r2.framesInFlight = r.framesInFlight ∧ r2.perFrameData = r.perFrameData ∧
    r2.perFrameIndex = r.perFrameIndex := by
  induction ds with
  | nil =>
    intro r r2 res h
    unfold acquireLoop at h
    injection h with h1 h2
    subst h1
    exact ⟨rfl, rfl, rfl⟩
  | cons d rest ih =>
    intro r r2 res h
    unfold acquireLoop at h
    split at h
    · injection h with h1 h2
      subst h1
      exact ⟨rfl, rfl, rfl⟩
    · exact ih r.recreateSwapchain r2 res h
    · injection h with h1 h2
      subst h1
      exact ⟨rfl, rfl, rfl⟩

/-- What one completed `Renderer::draw` call does to the renderer state:
the frames-in-flight count is preserved, the per-frame index advances by
exactly one modulo that count, the slot vector keeps its length, only the
current slot's fence changes, and the reported wait-blocked flag is
exactly "the current slot's fence was not signaled". -/
theorem draw_ok_spec (r : Renderer) (o : DrawOracle) (r2 : Renderer) (b : Bool)
    (h : r.draw o = DrawOutcome.ok r2 b) :
    r2.framesInFlight = r.framesInFlight ∧
    r2.perFrameIndex = (r.perFrameIndex + 1) % r.framesInFlight ∧
    r.framesInFlight ≠ 0 ∧
    r2.perFrameData.length = r.perFrameData.length ∧
    (∀ j, j ≠ r.perFrameIndex → r2.perFrameData[j]? = r.perFrameData[j]?) ∧
    (∀ slot, r.perFrameData[r.perFrameIndex]? = some slot →
      b = !(decide (slot.fence = FenceState.signaled))) := by
  have adv : ∀ (r4 : Renderer) (wb : Bool) (r5 : Renderer) (b2 : Bool),
      Renderer.advanceFrame r4 wb = DrawOutcome.ok r5 b2 →
      r5.framesInFlight = r4.framesInFlight ∧
      r5.perFrameIndex = (r4.perFrameIndex + 1) % r4.framesInFlight ∧
      r4.framesInFlight ≠ 0 ∧ r5.perFrameData = r4.perFrameData ∧ b2 = wb := by
    intro r4 wb r5 b2 hadv
    unfold Renderer.advanceFrame at hadv
    split at hadv
    · cases hadv
    · rename_i hnz
      injection hadv with h1 h2
      subst h1
      exact ⟨rfl, rfl, hnz, rfl, h2.symm⟩
  simp only [Renderer.draw] at h
  split at h
  · cases h
  · rename_i slot hslot
    split at h
    · cases h
    · cases h
    · rename_i r3 idx hacq
      obtain ⟨hf3, hd3, hi3⟩ := acquireLoop_state o.acquires _ r3 _ hacq
      have hf3r : r3.framesInFlight = r.framesInFlight := by
        simpa [Renderer.setFence] using hf3
      have hi3r : r3.perFrameIndex = r.perFrameIndex := by
        simpa [Renderer.setFence] using hi3
      have hd3r : r3.perFrameData =
          r.perFrameData.set r.perFrameIndex ⟨FenceState.unsignaled⟩ := by
        simpa [Renderer.setFence] using hd3
      split at h
      · cases h
      · rename_i needsRecreate hpres
        obtain ⟨h1, h2, h3, h4, h5⟩ := adv _ _ _ _ h
        have hAf : (if needsRecreate = true
            then (r3.setFence r.perFrameIndex FenceState.pending).recreateSwapchain
            else r3.setFence r.perFrameIndex FenceState.pending).framesInFlight =
            r.framesInFlight := by
          cases needsRecreate <;>
            simp [Renderer.setFence, Renderer.recreateSwapchain, hf3r]
        have hAi : (if needsRecreate = true
            then (r3.setFence r.perFrameIndex FenceState.pending).recreateSwapchain
            else r3.setFence r.perFrameIndex FenceState.pending).perFrameIndex =
            r.perFrameIndex := by
          cases needsRecreate <;>
            simp [Renderer.setFence, Renderer.recreateSwapchain, hi3r]
        have hAd : (if needsRecreate = true
            then (r3.setFence r.perFrameIndex FenceState.pending).recreateSwapchain
            else r3.setFence r.perFrameIndex FenceState.pending).perFrameData =
            (r.perFrameData.set r.perFrameIndex ⟨FenceState.unsignaled⟩).set
              r.perFrameIndex ⟨FenceState.pending⟩ := by
          cases needsRecreate <;>
            simp [Renderer.setFence, Renderer.recreateSwapchain, hd3r]
        refine ⟨by rw [h1, hAf], by rw [h2, hAf, hAi], by rw [← hAf]; exact h3,
          by rw [h4, hAd]; simp, ?_, ?_⟩
        · intro j hj
          rw [h4, hAd,
            List.getElem?_set_ne (fun hcontra => hj hcontra.symm),
            List.getElem?_set_ne (fun hcontra => hj hcontra.symm)]
        · intro slot2 hslot2
          rw [hslot] at hslot2
          injection hslot2 with hslot2
          subst hslot2
          exact h5

/-- C5: every completed `draw` call advances the per-frame index by
exactly one modulo the frames-in-flight count, whatever recreate events
occur during the frame; hence starting below `N` the index follows
`(start + k) mod N` over any run of `k` completed draws — in particular it
returns to its start after exactly `N` draws. -/
theorem frame_index_advance :
    (∀ (r : Renderer) (o : DrawOracle) (r2 : Renderer) (b : Bool),
      r.draw o = DrawOutcome.ok r2 b →
      r2.framesInFlight = r.framesInFlight ∧
      r2.perFrameIndex = (r.perFrameIndex + 1) % r.framesInFlight)
    ∧ (∀ (os : List DrawOracle) (r r2 : Renderer),
      r.perFrameIndex < r.framesInFlight →
      drawRun r os = some r2 →
      r2.framesInFlight = r.framesInFlight ∧
      r2.perFrameIndex = (r.perFrameIndex + os.length) % r.framesInFlight) := by
  have single : ∀ (r : Renderer) (o : DrawOracle) (r2 : Renderer) (b : Bool),
      r.draw o = DrawOutcome.ok r2 b →
      r2.framesInFlight = r.framesInFlight ∧
      r2.perFrameIndex = (r.perFrameIndex + 1) % r.framesInFlight := by
    intro r o r2 b h
    obtain ⟨h1, h2, _⟩ := draw_ok_spec r o r2 b h
    exact ⟨h1, h2⟩
  refine ⟨single, ?_⟩
  intro os
  induction os with
  | nil =>
    intro r r2 hidx h
    unfold drawRun at h
    injection h with h
    subst h
    exact ⟨rfl, by simp [Nat.mod_eq_of_lt hidx]⟩
  | cons o os ih =>
    intro r r2 hidx h
    unfold drawRun at h
    split at h
    · rename_i r1 b hd
      obtain ⟨hf1, hi1, hnz, _⟩ := draw_ok_spec r o r1 b hd
      have hidx1 : r1.perFrameIndex < r1.framesInFlight := by
        rw [hi1, hf1]
        exact Nat.mod_lt _ (Nat.pos_of_ne_zero hnz)
      obtain ⟨hf2, hi2⟩ := ih r1 r2 hidx1 h
      refine ⟨by rw [hf2, hf1], ?_⟩
      rw [hi2, hi1, hf1, Nat.mod_add_mod,
        show r.perFrameIndex + 1 + os.length = r.perFrameIndex + (os.length + 1) by omega]
      simp
    · cases h

/-- Witness for C5: from slot 0 of a two-slot renderer, one completed draw
moves the index to `(0 + 1) % 2`. -/
theorem frame_index_advance_witness :
    (Renderer.mk 2 2 1 [⟨FenceState.pending⟩, ⟨FenceState.signaled⟩] 1).framesInFlight =
      (Renderer.mk 2 2 1 [FrameSlot.new, FrameSlot.new] 0).framesInFlight ∧
    (Renderer.mk 2 2 1 [⟨FenceState.pending⟩, ⟨FenceState.signaled⟩] 1).perFrameIndex =
      ((Renderer.mk 2 2 1 [FrameSlot.new, FrameSlot.new] 0).perFrameIndex + 1) %
        (Renderer.mk 2 2 1 [FrameSlot.new, FrameSlot.new] 0).framesInFlight :=
  frame_index_advance.1 (Renderer.mk 2 2 1 [FrameSlot.new, FrameSlot.new] 0)
    ⟨[Except.ok (0, false)], Except.ok false⟩
    (Renderer.mk 2 2 1 [⟨FenceState.pending⟩, ⟨FenceState.signaled⟩] 1) false (by rfl)

/-- Through a run of completed draws that stays within the first cycle of
slots, the frames-in-flight count and slot count are preserved, the index
advances by the number of draws, and every slot not yet visited keeps its
signaled fence. -/
theorem drawRun_slots (os : List DrawOracle) :
    ∀ r r2, drawRun r os = some r2 →
    r.perFrameIndex + os.length < r.framesInFlight →
    slotsSignaledFrom r r.perFrameIndex →
    r2.framesInFlight = r.framesInFlight ∧
    r2.perFrameData.length = r.perFrameData.length ∧
    r2.perFrameIndex = r.perFrameIndex + os.length ∧
    slotsSignaledFrom r2 r2.perFrameIndex := by
  induction os with
  | nil =>
    intro r r2 h _ hsig
    unfold drawRun at h
    injection h with h
    subst h
    exact ⟨rfl, rfl, by simp, hsig⟩
  | cons o os ih =>
    intro r r2 h hlt hsig
    simp only [List.length_cons] at hlt
    unfold drawRun at h
    split at h
    · rename_i r1 b hd
      obtain ⟨hf1, hi1, hnz, hlen1, hpres1, _⟩ := draw_ok_spec r o r1 b hd
      have hi1e : r1.perFrameIndex = r.perFrameIndex + 1 := by
        rw [hi1]
        exact Nat.mod_eq_of_lt (by omega)
      have hsig1 : slotsSignaledFrom r1 r1.perFrameIndex := by
        intro j hj s hjs
        rw [hi1e] at hj
        have hjne : j ≠ r.perFrameIndex := by omega
        rw [hpres1 j hjne] at hjs
        exact hsig j (by omega) s hjs
      obtain ⟨a1, a2, a3, a4⟩ := ih r1 r2 h (by rw [hi1e, hf1]; omega) hsig1
      refine ⟨by rw [a1, hf1], by rw [a2, hlen1], ?_, a4⟩
      rw [a3, hi1e]
      simp only [List.length_cons]
      omega
    · cases h

/-- C9: every frame slot built by `Renderer::new` has its frame-done fence
created in the signaled state, and therefore the first fence wait a
scheduler step performs on each slot (during the first cycle through the
slots) finds the fence signaled and does not block. -/
theorem fences_start_signaled_first_wait :
    (∀ caps r0, Renderer.new caps = some r0 →
      ∀ s ∈ r0.perFrameData, s.fence = FenceState.signaled)
    ∧ (∀ caps r0 (os : List DrawOracle) r (o : DrawOracle) r2 b,
      Renderer.new caps = some r0 →
      drawRun r0 os = some r →
      os.length < r0.framesInFlight →
      r.draw o = DrawOutcome.ok r2 b →
      b = false) := by
  have hnew : ∀ caps r0, Renderer.new caps = some r0 →
      ∃ n, r0 = Renderer.mk n n 1 (List.replicate n FrameSlot.new) 0 := by
    intro caps r0 h
    unfold Renderer.new at h
    cases hm : framesInFlight caps with
    | none =>
      rw [hm] at h
      cases h
    | some n =>
      rw [hm] at h
      injection h with h
      exact ⟨n, h.symm⟩
  constructor
  · intro caps r0 h s hs
    obtain ⟨n, rfl⟩ := hnew caps r0 h
    have hsnew : s = FrameSlot.new := List.eq_of_mem_replicate hs
    rw [hsnew]
    rfl
  · intro caps r0 os r o r2 b h hrun hlen hdraw
    obtain ⟨n, rfl⟩ := hnew caps r0 h
    have hsig0 : slotsSignaledFrom
        (Renderer.mk n n 1 (List.replicate n FrameSlot.new) 0) 0 := by
      intro j _ s hjs
      rw [List.getElem?_replicate] at hjs
      split at hjs
      · injection hjs with hjs
        rw [← hjs]
        rfl
      · cases hjs
    obtain ⟨b1, b2, b3, b4⟩ := drawRun_slots os _ r hrun (by simpa using hlen) hsig0
    obtain ⟨_, _, _, _, _, hb⟩ := draw_ok_spec r o r2 b hdraw
    have hlenr : r.perFrameData.length = n := by simpa using b2
    have hidx : r.perFrameIndex < r.perFrameData.length := by
      rw [hlenr, b3]
      simpa using hlen
    have hslot : r.perFrameData[r.perFrameIndex]? =
        some (r.perFrameData[r.perFrameIndex]) :=
      List.getElem?_eq_getElem hidx
    have hsigslot : (r.perFrameData[r.perFrameIndex]).fence = FenceState.signaled :=
      b4 r.perFrameIndex (Nat.le_refl _) _ hslot
    rw [hb _ hslot, hsigslot]
    simp

/-- Witness for C9: on a fresh two-slot renderer, the first draw's fence
wait does not block. -/
theorem fences_start_signaled_first_wait_witness : (false : Bool) = false :=
  fences_start_signaled_first_wait.2 ⟨1, 0, ⟨0, 0⟩, ⟨0, 0⟩, ⟨0, 0⟩⟩
    (Renderer.mk 2 2 1 [FrameSlot.new, FrameSlot.new] 0) []
    (Renderer.mk 2 2 1 [FrameSlot.new, FrameSlot.new] 0)
    ⟨[Except.ok (0, false)], Except.ok false⟩
    (Renderer.mk 2 2 1 [⟨FenceState.pending⟩, ⟨FenceState.signaled⟩] 1) false
    (by rfl) rfl (by decide) (by rfl)

/-- The frames-in-flight computation never returns zero. -/
theorem framesInFlight_pos (caps : SurfaceCapabilities) (n : Nat)
    (h : framesInFlight caps = some n) : 0 < n := by
  cases hm : caps.maxImageCount with
  | zero =>
    simp only [framesInFlight, hm] at h
    injection h with h
    unfold FRAMES_IN_FLIGHT at h
    omega
  | succ m =>
    simp only [framesInFlight, hm] at h
    unfold rustClamp at h
    split at h
    · injection h with h
      unfold FRAMES_IN_FLIGHT at h
      omega
    · cases h

/-- From a state whose per-frame index is in bounds for its slot vector
(whose length is the frames-in-flight count), `draw` never panics: the
slot lookup succeeds and the index advance divides by a nonzero count; the
state reached in every outcome keeps the invariant. -/
theorem draw_cases (r : Renderer) (o : DrawOracle)
    (hlen : r.perFrameData.length = r.framesInFlight)
    (hidx : r.perFrameIndex < r.framesInFlight) :
    ∃ r2, (r.draw o = DrawOutcome.incomplete r2 ∨ r.draw o = DrawOutcome.failed r2 ∨
      ∃ b, r.draw o = DrawOutcome.ok r2 b) ∧
      r2.perFrameData.length = r2.framesInFlight ∧
      r2.perFrameIndex < r2.framesInFlight := by
  have hbound : r.perFrameIndex < r.perFrameData.length := by
    rw [hlen]
    exact hidx
  have hsome : r.perFrameData[r.perFrameIndex]? =
      some (r.perFrameData[r.perFrameIndex]) :=
    List.getElem?_eq_getElem hbound
  simp only [Renderer.draw, hsome]
  rcases hacq : acquireLoop (r.setFence r.perFrameIndex FenceState.unsignaled)
    o.acquires with ⟨r3, res⟩
  obtain ⟨hf3, hd3, hi3⟩ := acquireLoop_state o.acquires _ r3 _ hacq
  have hf3r : r3.framesInFlight = r.framesInFlight := by
    simpa [Renderer.setFence] using hf3
  have hi3r : r3.perFrameIndex = r.perFrameIndex := by
    simpa [Renderer.setFence] using hi3
  have hd3r : r3.perFrameData =
      r.perFrameData.set r.perFrameIndex ⟨FenceState.unsignaled⟩ := by
    simpa [Renderer.setFence] using hd3
  have hInv3 : r3.perFrameData.length = r3.framesInFlight ∧
      r3.perFrameIndex < r3.framesInFlight := by
    constructor
    · rw [hd3r, hf3r, List.length_set]
      exact hlen
    · rw [hi3r, hf3r]
      exact hidx
  cases res with
  | none => exact ⟨r3, Or.inl rfl, hInv3⟩
  | some res2 =>
    cases res2 with
    | error e => exact ⟨r3, Or.inr (Or.inl rfl), hInv3⟩
    | ok idx =>
      cases hpres : Swapchain.present o.presentResult with
      | error e =>
        refine ⟨r3.setFence r.perFrameIndex FenceState.pending,
          Or.inr (Or.inl rfl), ?_, ?_⟩
        · simp only [Renderer.setFence, List.length_set]
          rw [hd3r, List.length_set, hf3r]
          exact hlen
        · simp only [Renderer.setFence]
          rw [hi3r, hf3r]
          exact hidx
      | ok needsRecreate =>
        set A := (if needsRecreate = true
          then (r3.setFence r.perFrameIndex FenceState.pending).recreateSwapchain
          else r3.setFence r.perFrameIndex FenceState.pending) with hA
        have hAf : A.framesInFlight = r.framesInFlight := by
          rw [hA]
          cases needsRecreate <;>
            simp [Renderer.setFence, Renderer.recreateSwapchain, hf3r]
        have hAd : A.perFrameData =
            r3.perFrameData.set r.perFrameIndex ⟨FenceState.pending⟩ := by
          rw [hA]
          cases needsRecreate <;>
            simp [Renderer.setFence, Renderer.recreateSwapchain]
        have hnz : ¬ A.framesInFlight = 0 := by
          rw [hAf]
          omega
        refine ⟨{ A with perFrameIndex := (A.perFrameIndex + 1) % A.framesInFlight },
          Or.inr (Or.inr
            ⟨!decide ((r.perFrameData[r.perFrameIndex]).fence = FenceState.signaled),
              ?_⟩), ?_, ?_⟩
        · show Renderer.advanceFrame A _ = _
          unfold Renderer.advanceFrame
          rw [if_neg hnz]
        · simp only [hAd, hAf, List.length_set]
          rw [hd3r, List.length_set]
          exact hlen
        · simp only [hAf]
          exact Nat.mod_lt _ (by omega)

/-- `stepCall` preserves the in-bounds invariant and never panics from an
invariant state. -/
theorem stepCall_inv (r : Renderer) (c : RendererCall)
    (hlen : r.perFrameData.length = r.framesInFlight)
    (hidx : r.perFrameIndex < r.framesInFlight) :
    ∃ r2, stepCall r c = some r2 ∧ r2.perFrameData.length = r2.framesInFlight ∧
      r2.perFrameIndex < r2.framesInFlight := by
  cases c with
  | resizeCall => exact ⟨r.resize, rfl, hlen, hidx⟩
  | drawCall o =>
    obtain ⟨r2, hcase, hI1, hI2⟩ := draw_cases r o hlen hidx
    rcases hcase with hc | hc | ⟨b, hc⟩ <;>
      exact ⟨r2, by simp [stepCall, hc], hI1, hI2⟩

/-- Any sequence of external calls from an invariant state completes
without a panic and keeps the invariant. -/
theorem runCalls_inv (calls : List RendererCall) :
    ∀ r, r.perFrameData.length = r.framesInFlight →
    r.perFrameIndex < r.framesInFlight →
    ∃ r2, runCalls r calls = some r2 ∧
      r2.perFrameData.length = r2.framesInFlight ∧
      r2.perFrameIndex < r2.framesInFlight := by
  induction calls with
  | nil =>
    intro r h1 h2
    exact ⟨r, rfl, h1, h2⟩
  | cons c cs ih =>
    intro r h1 h2
    obtain ⟨r1, hs, h3, h4⟩ := stepCall_inv r c h1 h2
    obtain ⟨r2, hr, h5, h6⟩ := ih r1 h3 h4
    refine ⟨r2, ?_, h5, h6⟩
    unfold runCalls
    rw [hs]
    exact hr

/-- C10: after a successful construction the slot vector holds exactly
`frames_in_flight` entries and the per-frame index stays strictly below
`frames_in_flight` under every sequence of `draw` and `resize` calls, so
the frame-slot lookup at the start of `draw` is always in bounds and no
call panics. -/
theorem frame_index_in_bounds (caps : SurfaceCapabilities) (r0 : Renderer)
    (calls : List RendererCall) (h : Renderer.new caps = some r0) :
    ∃ r2, runCalls r0 calls = some r2 ∧
      r2.perFrameData.length = r2.framesInFlight ∧
      r2.perFrameIndex < r2.framesInFlight := by
  unfold Renderer.new at h
  cases hm : framesInFlight caps with
  | none =>
    rw [hm] at h
    cases h
  | some n =>
    rw [hm] at h
    injection h with h
    subst h
    have hpos : 0 < n := framesInFlight_pos caps n hm
    exact runCalls_inv calls _ (by simp) (by simpa using hpos)

/-- `noEvent` distributes over append. -/
theorem noEvent_append (p : TeardownEvent → Bool) (l1 l2 : List TeardownEvent)
    (h1 : noEvent p l1) (h2 : noEvent p l2) : noEvent p (l1 ++ l2) := by
  intro e he
  rcases List.mem_append.mp he with h | h
  · exact h1 e h
  · exact h2 e h

/-- `noEvent` for a replicated event. -/
theorem noEvent_replicate (p : TeardownEvent → Bool) (n : Nat) (x : TeardownEvent)
    (h : p x = false) : noEvent p (List.replicate n x) := by
  intro e he
  rw [List.eq_of_mem_replicate he]
  exact h

/-- `noEvent` for a flattened replicated block. -/
theorem noEvent_flatten_replicate (p : TeardownEvent → Bool) (n : Nat)
    (blk : List TeardownEvent) (h : noEvent p blk) :
    noEvent p (List.replicate n blk).flatten := by
  intro e he
  obtain ⟨l, hl, hel⟩ := List.mem_flatten.mp he
  rw [List.eq_of_mem_replicate hl] at hel
  exact h e hel

/-- When no `q`-event occurs in the prefix and no `p`-event in the suffix,
every `p`-event precedes every `q`-event in the concatenation. -/
theorem precedes_append (l1 l2 : List TeardownEvent) (p q : TeardownEvent → Bool)
    (h1 : noEvent q l1) (h2 : noEvent p l2) : precedes (l1 ++ l2) p q := by
  intro i j hi hj hp hq
  by_cases hil : i < l1.length
  · by_cases hjl : j < l1.length
    · exfalso
      rw [List.getElem_append_left hjl] at hq
      have hq0 := h1 (l1[j]) (List.getElem_mem hjl)
      simp [hq0] at hq
    · have hjlen : l1.length ≤ j := Nat.le_of_not_lt hjl
      omega
  · exfalso
    have hilen : l1.length ≤ i := Nat.le_of_not_lt hil
    have hsub : i - l1.length < l2.length := by
      rw [List.length_append] at hi
      omega
    rw [List.getElem_append_right hilen] at hp
    have hp0 := h2 (l2[i - l1.length]) (List.getElem_mem hsub)
    simp [hp0] at hp

/-- C8 counterexample: in the concrete teardown of a renderer with two
frame slots, three framebuffers, three image views and an active debug
messenger, the last destruction event is the instance, not the debug
messenger — so the claim that the debug hook is destroyed last fails. -/
theorem teardown_debug_not_last :
    (rendererDrop 2 3 3 true).getLast? = some TeardownEvent.destroyInstance ∧
    TeardownEvent.destroyDebugMessenger ∈ rendererDrop 2 3 3 true ∧
    (rendererDrop 2 3 3 true).getLast? ≠ some TeardownEvent.destroyDebugMessenger := by
  refine ⟨by decide, by decide, by decide⟩

/-- C8 (amended): the teardown first drives the device idle and then
destroys objects in reverse dependency order — per-frame sync primitives
before the command pools, framebuffers and pipelines before the render
pass, image views before the swapchain, the swapchain before the device,
the surface before the instance — and the debug messenger is destroyed
after everything except the instance, which owns it and is destroyed
last. -/
theorem teardown_order (slots fbs views : Nat) :
    (rendererDrop slots fbs views true).head? = some TeardownEvent.deviceWaitIdle ∧
    precedes (rendererDrop slots fbs views true)
      (fun e => e == TeardownEvent.destroyFence || e == TeardownEvent.destroySemaphore)
      (fun e => e == TeardownEvent.destroyCommandPool) ∧
    precedes (rendererDrop slots fbs views true)
      (fun e => e == TeardownEvent.destroyFramebuffer ||
        e == TeardownEvent.destroyPipeline || e == TeardownEvent.destroyPipelineLayout)
      (fun e => e == TeardownEvent.destroyRenderPass) ∧
    precedes (rendererDrop slots fbs views true)
      (fun e => e == TeardownEvent.destroyImageView)
      (fun e => e == TeardownEvent.destroySwapchain) ∧
    precedes (rendererDrop slots fbs views true)
      (fun e => e == TeardownEvent.destroySwapchain)
      (fun e => e == TeardownEvent.destroyDevice) ∧
    precedes (rendererDrop slots fbs views true)
      (fun e => e == TeardownEvent.destroySurface)
      (fun e => e == TeardownEvent.destroyInstance) ∧
    (rendererDrop slots fbs views true).getLast? = some TeardownEvent.destroyInstance ∧
    (rendererDrop slots fbs views true).dropLast.getLast? =
      some TeardownEvent.destroyDebugMessenger := by
  have hsplit1 : rendererDrop slots fbs views true =
      ([TeardownEvent.deviceWaitIdle] ++ ((List.replicate slots perFrameDestroy).flatten ++
        (triangleRendererDestroy ++ (List.replicate fbs TeardownEvent.destroyFramebuffer ++
        ([TeardownEvent.destroyRenderPass] ++
        (List.replicate views TeardownEvent.destroyImageView ++
        [TeardownEvent.destroySwapchain])))))) ++
      (deviceDestroy ++ [TeardownEvent.destroySurface, TeardownEvent.destroyDebugMessenger,
        TeardownEvent.destroyInstance]) := by
    simp [rendererDrop, swapchainDestroy, List.append_assoc]
  have hsplit2 : rendererDrop slots fbs views true =
      ([TeardownEvent.deviceWaitIdle] ++ ((List.replicate slots perFrameDestroy).flatten ++
        (triangleRendererDestroy ++ List.replicate fbs TeardownEvent.destroyFramebuffer))) ++
      ([TeardownEvent.destroyRenderPass] ++
        (List.replicate views TeardownEvent.destroyImageView ++
        ([TeardownEvent.destroySwapchain] ++ (deviceDestroy ++
        [TeardownEvent.destroySurface, TeardownEvent.destroyDebugMessenger,
          TeardownEvent.destroyInstance])))) := by
    simp [rendererDrop, swapchainDestroy, List.append_assoc]
  have hsplit3 : rendererDrop slots fbs views true =
      ([TeardownEvent.deviceWaitIdle] ++ ((List.replicate slots perFrameDestroy).flatten ++
        (triangleRendererDestroy ++ (List.replicate fbs TeardownEvent.destroyFramebuffer ++
        ([TeardownEvent.destroyRenderPass] ++
        List.replicate views TeardownEvent.destroyImageView))))) ++
      ([TeardownEvent.destroySwapchain] ++ (deviceDestroy ++
        [TeardownEvent.destroySurface, TeardownEvent.destroyDebugMessenger,
          TeardownEvent.destroyInstance])) := by
    simp [rendererDrop, swapchainDestroy, List.append_assoc]
  have hsplit4 : rendererDrop slots fbs views true =
      ([TeardownEvent.deviceWaitIdle] ++ ((List.replicate slots perFrameDestroy).flatten ++
        (triangleRendererDestroy ++ (List.replicate fbs TeardownEvent.destroyFramebuffer ++
        ([TeardownEvent.destroyRenderPass] ++
        (List.replicate views TeardownEvent.destroyImageView ++
        ([TeardownEvent.destroySwapchain] ++ (deviceDestroy ++
        [TeardownEvent.destroySurface])))))))) ++
      [TeardownEvent.destroyDebugMessenger, TeardownEvent.destroyInstance] := by
    simp [rendererDrop, swapchainDestroy, List.append_assoc]
  have hsplit5 : rendererDrop slots fbs views true =
      ([TeardownEvent.deviceWaitIdle] ++ (List.replicate slots perFrameDestroy).flatten ++
        triangleRendererDestroy ++ List.replicate fbs TeardownEvent.destroyFramebuffer ++
        [TeardownEvent.destroyRenderPass] ++
        List.replicate views TeardownEvent.destroyImageView ++
        [TeardownEvent.destroySwapchain] ++ deviceDestroy ++
        [TeardownEvent.destroySurface] ++ [TeardownEvent.destroyDebugMessenger]) ++
      [TeardownEvent.destroyInstance] := by
    simp [rendererDrop, swapchainDestroy, List.append_assoc]
  refine ⟨rfl, ?_, ?_, ?_, ?_, ?_, ?_, ?_⟩
  · rw [hsplit1]
    refine precedes_append _ _ _ _ ?_ (by decide)
    exact noEvent_append _ _ _ (by decide)
      (noEvent_append _ _ _ (noEvent_flatten_replicate _ _ _ (by decide))
        (noEvent_append _ _ _ (by decide)
          (noEvent_append _ _ _ (noEvent_replicate _ _ _ (by decide))
            (noEvent_append _ _ _ (by decide)
              (noEvent_append _ _ _ (noEvent_replicate _ _ _ (by decide)) (by decide))))))
  · rw [hsplit2]
    refine precedes_append _ _ _ _ ?_ ?_
    · exact noEvent_append _ _ _ (by decide)
        (noEvent_append _ _ _ (noEvent_flatten_replicate _ _ _ (by decide))
          (noEvent_append _ _ _ (by decide) (noEvent_replicate _ _ _ (by decide))))
    · exact noEvent_append _ _ _ (by decide)
        (noEvent_append _ _ _ (noEvent_replicate _ _ _ (by decide))
          (noEvent_append _ _ _ (by decide) (noEvent_append _ _ _ (by decide) (by decide))))
  · rw [hsplit3]
    refine precedes_append _ _ _ _ ?_ (by decide)
    exact noEvent_append _ _ _ (by decide)
      (noEvent_append _ _ _ (noEvent_flatten_replicate _ _ _ (by decide))
        (noEvent_append _ _ _ (by decide)
          (noEvent_append _ _ _ (noEvent_replicate _ _ _ (by decide))
            (noEvent_append _ _ _ (by decide) (noEvent_replicate _ _ _ (by decide))))))
  · rw [hsplit1]
    refine precedes_append _ _ _ _ ?_ (by decide)
    exact noEvent_append _ _ _ (by decide)
      (noEvent_append _ _ _ (noEvent_flatten_replicate _ _ _ (by decide))
        (noEvent_append _ _ _ (by decide)
          (noEvent_append _ _ _ (noEvent_replicate _ _ _ (by decide))
            (noEvent_append _ _ _ (by decide)
              (noEvent_append _ _ _ (noEvent_replicate _ _ _ (by decide)) (by decide))))))
  · rw [hsplit4]
    refine precedes_append _ _ _ _ ?_ (by decide)
    exact noEvent_append _ _ _ (by decide)
      (noEvent_append _ _ _ (noEvent_flatten_replicate _ _ _ (by decide))
        (noEvent_append _ _ _ (by decide)
          (noEvent_append _ _ _ (noEvent_replicate _ _ _ (by decide))
            (noEvent_append _ _ _ (by decide)
              (noEvent_append _ _ _ (noEvent_replicate _ _ _ (by decide))
                (noEvent_append _ _ _ (by decide)
                  (noEvent_append _ _ _ (by decide) (by decide))))))))
  · rw [hsplit5, List.getLast?_concat]
  · rw [hsplit5, List.dropLast_concat, List.getLast?_concat]

/-- Witness for C8: in the concrete teardown with two slots, three
framebuffers and three views, the event list starts with the device-idle
wait, and the fence destruction at position 1 precedes the command-pool
destruction at position 21. -/
theorem teardown_order_witness :
    (rendererDrop 2 3 3 true).head? = some TeardownEvent.deviceWaitIdle ∧
    (1 : Nat) < 21 :=
  ⟨(teardown_order 2 3 3).1,
    (teardown_order 2 3 3).2.1 1 21 (by decide) (by decide) (by decide) (by decide)⟩

/-- Witness for C10: a fresh two-slot renderer survives a resize call with
the invariant intact. -/
theorem frame_index_in_bounds_witness :
    ∃ r2, runCalls (Renderer.mk 2 2 1 [FrameSlot.new, FrameSlot.new] 0)
        [RendererCall.resizeCall] = some r2 ∧
      r2.perFrameData.length = r2.framesInFlight ∧
      r2.perFrameIndex < r2.framesInFlight :=
  frame_index_in_bounds ⟨1, 0, ⟨0, 0⟩, ⟨0, 0⟩, ⟨0, 0⟩⟩
    (Renderer.mk 2 2 1 [FrameSlot.new, FrameSlot.new] 0)
    [RendererCall.resizeCall] (by rfl)

end Vkt
